import Mathlib

/-!
Verification of the cascading-filter boxplot application
(`src/01_posbolt2Excel.py`) against its natural-language specification.

The Python program is embedded shallowly:

* pandas cell values become `Value` (a number, a string, or `na` standing
  for NaN / missing); a dataframe becomes a `Dataset`: a schema assigning a
  dtype class to each column plus a list of rows (association lists).
* floats that may be NaN (the min/max bounds of numeric filters) become
  `Option ℚ`, with `none` playing NaN: every comparison against `none` is
  false, exactly as every comparison against NaN is false in pandas.
* `pandas.Series.quantile` (default linear interpolation) becomes
  `quantileLinear`; `sorted` becomes insertion sort (stable, like Python's
  `sorted`); `Series.unique` + `sorted` becomes `uniq` + `pySorted` (the
  result is sorted, so only the set of distinct values matters and the
  first-occurrence order kept by `unique` is irrelevant).
* fallible code paths (out-of-range list indexing, referencing a local
  variable before assignment) become `Except PyErr`.
-/

namespace PosboltViz

/-- A pandas cell value: a number, a string, or NaN / missing (`na`). -/
inductive Value where
  | na : Value
  | num (q : ℚ) : Value
  | str (s : String) : Value
deriving DecidableEq, Repr

/-- A dataframe row: an association list from column name to cell value. -/
abbrev Row := List (String × Value)

/-- dtype class of a column: `categorical` models pandas dtypes
`object`/`category`; `numeric` models `int64`/`float64`. -/
inductive CType where
  | categorical : CType
  | numeric : CType
deriving DecidableEq, Repr

/-- A dataframe: a schema (column name to dtype class, declaration order)
and a list of rows. -/
structure Dataset where
  schema : List (String × CType)
  rows : List Row
deriving DecidableEq, Repr

/-- Cell lookup `df[col]` for one row; a missing key is treated as NaN. -/
def getCell (r : Row) (c : String) : Value :=
  (List.lookup c r).getD Value.na

/-- Is the value NaN / missing? -/
def Value.isNa : Value → Bool
  | .na => true
  | _ => false

/-- Is the value a number? -/
def Value.isNum : Value → Bool
  | .num _ => true
  | _ => false

/-- Numeric view of a value (`none` for NaN or text). -/
def Value.asNum : Value → Option ℚ
  | .num q => some q
  | _ => none

/-- Comparison used by Python `sorted` on homogeneous column values:
numbers by `≤` on ℚ, strings lexicographically.  The remaining cases
(mixed types, NaN) never reach `sorted` in the program — categorical
domains are built from `dropna()` output and group/color keys come from
`dropna`-ed frames — so any total completion is adequate. -/
def valueLe : Value → Value → Bool
  | .num a, .num b => a ≤ b
  | .str a, .str b => (compare a b).isLE
  | .na, _ => true
  | _, .na => false
  | .num _, .str _ => true
  | .str _, .num _ => false

/-- Python's `sorted` on cell values (stable; insertion sort). -/
def pySorted (l : List Value) : List Value :=
  l.insertionSort (fun a b => valueLe a b = true)

/-- Distinct values of a list (the set of values kept; the program always
sorts the result, so occurrence order is immaterial). -/
def uniq : List Value → List Value
  | [] => []
  | a :: l =>
      let u := uniq l
      if a ∈ u then u else a :: u

/-- The values of one column, in row order (`df[col]`). -/
def colValues (rows : List Row) (c : String) : List Value :=
  rows.map (fun r => getCell r c)

/-- `df[cols].dropna()`: keep the rows with no missing value in any of the
selected columns (lines 413-418 of the source). -/
def dropnaRows (cols : List String) (rows : List Row) : List Row :=
  rows.filter (fun r => cols.all (fun c => !(getCell r c).isNa))

/-- The numeric values of a column in row order, NaN/text skipped —
what pandas reductions (`min`, `max`, `quantile`, `mean`) operate on. -/
def numsOf (rows : List Row) (c : String) : List ℚ :=
  rows.filterMap (fun r => (getCell r c).asNum)

/-- Minimum of a list of rationals, `none` when empty (pandas `Series.min`
skips NaN and returns NaN — here `none` — when nothing remains). -/
def listMin : List ℚ → Option ℚ
  | [] => none
  | q :: qs => some (qs.foldl min q)

/-- Maximum of a list of rationals, `none` when empty. -/
def listMax : List ℚ → Option ℚ
  | [] => none
  | q :: qs => some (qs.foldl max q)

/-- `float(df[col].min())` over the given frame (line 264). -/
def colMin (df : Dataset) (c : String) : Option ℚ :=
  listMin (numsOf df.rows c)

/-- `float(df[col].max())` over the given frame (line 265). -/
def colMax (df : Dataset) (c : String) : Option ℚ :=
  listMax (numsOf df.rows c)

/-- `sorted(df[col].dropna().unique().tolist())` (line 255). -/
def sorted_unique_dropna (df : Dataset) (c : String) : List Value :=
  pySorted (uniq ((colValues df.rows c).filter (fun v => !v.isNa)))

/-- `df[column].dtype in ['object', 'category']` (line 253). -/
def isCategoricalCol (df : Dataset) (c : String) : Bool :=
  List.lookup c df.schema == some CType.categorical

/-! ## Quantiles and the outlier classifier (lines 431-438, 539-546, 603-610) -/

/-- Ascending sort of rational samples (what pandas quantile sorts). -/
def sortQ (l : List ℚ) : List ℚ :=
  l.insertionSort (fun a b : ℚ => a ≤ b)

/-- `Series.quantile(q)` with the default linear interpolation: with the
samples sorted ascending and `h = q * (n - 1)`, interpolate between the
entries at positions `⌊h⌋` and `⌊h⌋ + 1`. -/
def quantileLinear (xs : List ℚ) (q : ℚ) : ℚ :=
  let s := sortQ xs
  let h := q * ((s.length : ℚ) - 1)
  let j := (⌊h⌋).toNat
  let base := s.getD j 0
  base + (h - (j : ℚ)) * (s.getD (j + 1) base - base)

/-- The Tukey fence of a sample set: `(Q1 - 1.5·IQR, Q3 + 1.5·IQR)`
(lines 431-435). -/
def fenceOf (data : List ℚ) : ℚ × ℚ :=
  let q1 := quantileLinear data (1/4)
  let q3 := quantileLinear data (3/4)
  let iqr := q3 - q1
  (q1 - 3/2 * iqr, q3 + 3/2 * iqr)

/-- The outlier classifier (spec §4.3): partition the samples into
`(normal, outliers)` against the Tukey fence, keeping input order —
`data[(data >= lb) & (data <= ub)]` and `data[(data < lb) | (data > ub)]`
(lines 437-438). -/
def classify (data : List ℚ) : List ℚ × List ℚ :=
  let f := fenceOf data
  (data.filter (fun x => f.1 ≤ x && x ≤ f.2),
   data.filter (fun x => x < f.1 || f.2 < x))

/-! ## Filter chain (spec §4.2) -/

/-- A filter specification, the dictionaries built in `add_new_filter`
(lines 256-272).  Numeric bounds are `Option ℚ` with `none` for NaN. -/
inductive FilterSpec where
  | categorical (column : String) (all_values selected_values : List Value)
  | numeric (column : String) (min_val max_val range_lo range_hi : Option ℚ)
deriving DecidableEq, Repr

/-- `value >= bound` in pandas: false whenever either side is NaN or the
cell is not a number. -/
def numGe (v : Value) (bound : Option ℚ) : Bool :=
  match v, bound with
  | .num q, some b => b ≤ q
  | _, _ => false

/-- `value <= bound` in pandas: false whenever either side is NaN or the
cell is not a number. -/
def numLeB (v : Value) (bound : Option ℚ) : Bool :=
  match v, bound with
  | .num q, some b => q ≤ b
  | _, _ => false

/-- Row predicate of one filter spec: `isin(selected_values)` for a
categorical spec, the closed interval test for a numeric spec. -/
def specPred (s : FilterSpec) (r : Row) : Bool :=
  match s with
  | .categorical c _ sel => sel.contains (getCell r c)
  | .numeric c _ _ lo hi => numGe (getCell r c) lo && numLeB (getCell r c) hi

/-- One step of the filter loop (lines 281-291 / 375-387): a categorical
spec with an empty selection empties the frame (`iloc[0:0]`); otherwise
the rows are filtered by the spec's predicate. -/
def applySpec (rows : List Row) (s : FilterSpec) : List Row :=
  match s with
  | .categorical c _ sel =>
      if sel.isEmpty then []
      else rows.filter (fun r => sel.contains (getCell r c))
  | .numeric c _ _ lo hi =>
      rows.filter (fun r => numGe (getCell r c) lo && numLeB (getCell r c) hi)

/-- `apply_filters_to_data(df, filters_list)` (lines 370-389): apply every
spec in chain order, left to right. -/
def apply_filters_to_data (df : Dataset) (filters_list : List FilterSpec) : Dataset :=
  ⟨df.schema, filters_list.foldl applySpec df.rows⟩

/-- `apply_current_filters(df)` (lines 276-293), textually the same loop as
`apply_filters_to_data` applied to the session's active filters. -/
def apply_current_filters (df : Dataset) (active_filters : List FilterSpec) : Dataset :=
  ⟨df.schema, active_filters.foldl applySpec df.rows⟩

/-- `add_new_filter(df, column)` (lines 248-274): narrow the dataset by the
currently active filters, snapshot the new filter's domain from that
narrowed frame, and append the new spec to the chain. -/
def add_new_filter (df : Dataset) (active_filters : List FilterSpec)
    (column : String) : List FilterSpec :=
  let filtered_df := apply_current_filters df active_filters
  if isCategoricalCol df column then
    let unique_values := sorted_unique_dropna filtered_df column
    active_filters ++ [.categorical column unique_values unique_values]
  else
    let min_val := colMin filtered_df column
    let max_val := colMax filtered_df column
    active_filters ++ [.numeric column min_val max_val min_val max_val]

/-- `st.session_state.active_filters.pop(i)` (line 217): remove the spec at
index `i`; every other spec is untouched. -/
def removeFilter (chain : List FilterSpec) (i : ℕ) : List FilterSpec :=
  chain.eraseIdx i

/-! ## Group keys of the statistics tables and of the plot (lines 576-590, 729-737) -/

/-- The group keys enumerated by `show_statistics` (lines 729-737):
`df.groupby(x)[y].describe()` and `df[x].value_counts().sort_index()` both
produce the distinct non-missing values of the grouping column in
ascending sorted order. -/
def statsGroupKeys (df : Dataset) (x_column : String) : List Value :=
  pySorted (uniq ((colValues df.rows x_column).filter (fun v => !v.isNa)))

/-- The group positions used by `create_boxplot` (line 578):
`sorted(plot_df[x_column].unique())` where `plot_df` is
`df[[y_column, x_column]].dropna()`. -/
def plotGroupKeys (df : Dataset) (y_column x_column : String) : List Value :=
  pySorted (uniq (colValues (dropnaRows [y_column, x_column] df.rows) x_column))

/-! ## Color palette of the Series Assembler (lines 9-15, 504-506) -/

/-- `plotly.express.colors.qualitative.Set1` (external palette constant). -/
def Set1 : List String :=
  ["rgb(228,26,28)", "rgb(55,126,184)", "rgb(77,175,74)", "rgb(152,78,163)",
   "rgb(255,127,0)", "rgb(255,255,51)", "rgb(166,86,40)", "rgb(247,129,191)",
   "rgb(153,153,153)"]

/-- `plotly.express.colors.qualitative.Set2` (external palette constant). -/
def Set2 : List String :=
  ["rgb(102,194,165)", "rgb(252,141,98)", "rgb(141,160,203)", "rgb(231,138,195)",
   "rgb(166,216,84)", "rgb(255,217,47)", "rgb(229,196,148)", "rgb(179,179,179)"]

/-- `plotly.express.colors.qualitative.Set3` (external palette constant). -/
def Set3 : List String :=
  ["rgb(141,211,199)", "rgb(255,255,179)", "rgb(190,186,218)", "rgb(251,128,114)",
   "rgb(128,177,211)", "rgb(253,180,98)", "rgb(179,222,105)", "rgb(252,205,229)",
   "rgb(217,217,217)", "rgb(188,128,189)", "rgb(204,235,197)", "rgb(255,237,111)"]

/-- `plotly.express.colors.qualitative.Pastel1` (external palette constant). -/
def Pastel1 : List String :=
  ["rgb(251,180,174)", "rgb(179,205,227)", "rgb(204,235,197)", "rgb(222,203,228)",
   "rgb(254,217,166)", "rgb(255,255,204)", "rgb(229,216,189)", "rgb(253,218,236)",
   "rgb(242,242,242)"]

/-- `plotly.express.colors.qualitative.Pastel2` (external palette constant). -/
def Pastel2 : List String :=
  ["rgb(179,226,205)", "rgb(253,205,172)", "rgb(203,213,232)", "rgb(244,202,228)",
   "rgb(230,245,201)", "rgb(255,242,174)", "rgb(241,226,204)", "rgb(204,204,204)"]

/-- `EXTENDED_COLORS` (lines 9-15): the five qualitative palettes
concatenated — 9 + 8 + 12 + 9 + 8 = 46 entries. -/
def EXTENDED_COLORS : List String :=
  Set1 ++ Set2 ++ Set3 ++ Pastel1 ++ Pastel2

/-- A Python runtime error reachable in `create_boxplot`. -/
inductive PyErr where
  /-- `IndexError`: list index out of range. -/
  | indexError : PyErr
  /-- `UnboundLocalError`: a local variable referenced before assignment. -/
  | unboundLocal : PyErr
  /-- the `plot_df.empty` early return with an error message (line 420). -/
  | noValidData : PyErr
deriving DecidableEq, Repr

/-- The dict comprehension
`{group: colors[i] for i, group in enumerate(color_groups)}` (line 506):
each indexing `colors[i]` either succeeds or raises `IndexError`, at the
first out-of-range index, in enumeration order. -/
def assignColors (colors : List String) : List Value → ℕ → Except PyErr (List (Value × String))
  | [], _ => .ok []
  | g :: gs, i =>
      match colors[i]? with
      | some c => (assignColors colors gs (i + 1)).map (fun m => (g, c) :: m)
      | none => .error .indexError

/-- Lines 505-506: `colors = EXTENDED_COLORS[:len(color_groups)]` (a Python
slice, which truncates silently) followed by the color-map comprehension. -/
def build_color_map (color_groups : List Value) : Except PyErr (List (Value × String)) :=
  assignColors (EXTENDED_COLORS.take color_groups.length) color_groups 0

/-- `sorted(plot_df[color_column].unique())` (line 504). -/
def colorGroupsOf (rows : List Row) (color_column : String) : List Value :=
  pySorted (uniq (colValues rows color_column))

/-! ## The single-box branch of `create_boxplot` (lines 410-498) -/

/-- A plotly trace as emitted by the single-box branch (only the fields the
claims are about). -/
inductive Trace where
  /-- `go.Box(y=data, name=y_column, ...)` (lines 441-448). -/
  | box (name : String) (ys : List ℚ) : Trace
  /-- `go.Scatter(x=[label]*n, y=ys, mode='markers', ...)`. -/
  | markers (name : String) (xlabel : String) (ys : List ℚ) (color : String)
      (showlegend : Bool) : Trace
deriving DecidableEq, Repr

/-- The `x_column == "없음"` (no group column) branch of `create_boxplot`
(lines 410-498).  It drops missing values, classifies the whole column
against one fence, and emits the box and point traces.  The `show_mean`
block (lines 474-496) reads the local variables `group_data` and `group`,
which are assigned only in the *grouped* branches of the same function, so
in this branch Python raises `UnboundLocalError` before any mean marker is
emitted; the embedding returns that error. -/
def create_boxplot_single (df : Dataset) (y_column : String)
    (show_points show_mean : Bool) : Except PyErr (List Trace) :=
  let plot_rows := dropnaRows [y_column] df.rows
  if plot_rows.isEmpty then .error .noValidData
  else
    let data := numsOf plot_rows y_column
    let nrm_out := classify data
    let base := [Trace.box y_column data]
    let pts :=
      if show_points then
        [Trace.markers "데이터" y_column nrm_out.1 "gray" true] ++
          (if nrm_out.2.isEmpty then []
           else [Trace.markers "이상치" y_column nrm_out.2 "yellow" true])
      else []
    if show_mean then .error .unboundLocal
    else .ok (base ++ pts)

/-! ## Concrete datasets used by counterexamples and witnesses -/

/-- A one-column numeric dataset with one value and one missing value. -/
def dfC8 : Dataset :=
  ⟨[("c", CType.numeric)], [[("c", Value.num 1)], [("c", Value.na)]]⟩

/-- A one-column numeric dataset with two non-missing values. -/
def dfC8w : Dataset :=
  ⟨[("c", CType.numeric)], [[("c", Value.num 1)], [("c", Value.num 3)]]⟩

/-- A one-column numeric dataset whose only value is missing. -/
def dfC10 : Dataset :=
  ⟨[("c", CType.numeric)], [[("c", Value.na)]]⟩

/-- A two-column dataset in which group `A` has only a missing value in the
value column while group `B` has a real one. -/
def dfC9 : Dataset :=
  ⟨[("g", CType.categorical), ("v", CType.numeric)],
   [[("g", Value.str "A"), ("v", Value.na)],
    [("g", Value.str "B"), ("v", Value.num 1)]]⟩

/-- A two-column dataset with no missing values. -/
def dfC9w : Dataset :=
  ⟨[("g", CType.categorical), ("v", CType.numeric)],
   [[("g", Value.str "B"), ("v", Value.num 1)],
    [("g", Value.str "A"), ("v", Value.num 2)]]⟩

/-- A two-row numeric dataset for the no-group branch. -/
def dfC2 : Dataset :=
  ⟨[("v", CType.numeric)], [[("v", Value.num 1)], [("v", Value.num 2)]]⟩

/-- Rows whose color column takes 47 distinct values — one more than the
46-entry `EXTENDED_COLORS` palette. -/
def rows47 : List Row :=
  (List.range 47).map (fun n => [("c", Value.str (toString n))])

/-! ## Helper lemmas -/

/-- The outlier test `(x < lb) | (x > ub)` is the pointwise Boolean
complement of the normal-point test `(x >= lb) & (x <= ub)`. -/
theorem fence_pred_compl (lb ub x : ℚ) :
    (decide (x < lb) || decide (ub < x)) = !(decide (lb ≤ x) && decide (x ≤ ub)) := by
  simp only [← decide_not, ← Bool.decide_and, ← Bool.decide_or, decide_eq_decide,
    not_and_or, not_le]

/-- Every in-range `getD` of a constant-valued list returns that value. -/
theorem getD_of_all_eq {s : List ℚ} {v : ℚ} (hall : ∀ a ∈ s, a = v) {j : ℕ}
    (hj : j < s.length) (d : ℚ) : s.getD j d = v := by
  rw [List.getD_eq_getElem?_getD, List.getElem?_eq_getElem hj]
  exact hall _ (List.getElem_mem hj)

/-- The interpolation step of `quantileLinear` on a constant-valued list. -/
theorem getD_interp_const {s : List ℚ} {v : ℚ} (hmem : ∀ a ∈ s, a = v)
    (hn : 1 ≤ s.length) {q : ℚ} (hq0 : 0 ≤ q) (hq1 : q ≤ 1) :
    s.getD (⌊q * ((s.length : ℚ) - 1)⌋).toNat 0 +
      (q * ((s.length : ℚ) - 1) - ((⌊q * ((s.length : ℚ) - 1)⌋).toNat : ℚ)) *
        (s.getD ((⌊q * ((s.length : ℚ) - 1)⌋).toNat + 1)
          (s.getD (⌊q * ((s.length : ℚ) - 1)⌋).toNat 0) -
         s.getD (⌊q * ((s.length : ℚ) - 1)⌋).toNat 0) = v := by
  have hn1 : (0 : ℚ) ≤ (s.length : ℚ) - 1 := by
    have : (1 : ℚ) ≤ (s.length : ℚ) := by exact_mod_cast hn
    linarith
  have hh0 : 0 ≤ q * ((s.length : ℚ) - 1) := mul_nonneg hq0 hn1
  have hh1 : q * ((s.length : ℚ) - 1) ≤ (s.length : ℚ) - 1 := mul_le_of_le_one_left hn1 hq1
  have hfl0 : 0 ≤ ⌊q * ((s.length : ℚ) - 1)⌋ := Int.floor_nonneg.mpr hh0
  have hfl1 : ⌊q * ((s.length : ℚ) - 1)⌋ ≤ (s.length : ℤ) - 1 := by
    calc ⌊q * ((s.length : ℚ) - 1)⌋ ≤ ⌊(s.length : ℚ) - 1⌋ := Int.floor_le_floor hh1
      _ = (s.length : ℤ) - 1 := by
          rw [show ((s.length : ℚ) - 1) = (((s.length : ℤ) - 1 : ℤ) : ℚ) by push_cast; ring,
            Int.floor_intCast]
  have hjlt : (⌊q * ((s.length : ℚ) - 1)⌋).toNat < s.length := by omega
  have hbase : s.getD (⌊q * ((s.length : ℚ) - 1)⌋).toNat 0 = v := getD_of_all_eq hmem hjlt 0
  have hnext : ∀ d, d = v → s.getD ((⌊q * ((s.length : ℚ) - 1)⌋).toNat + 1) d = v := by
    intro d hd
    by_cases hj1 : (⌊q * ((s.length : ℚ) - 1)⌋).toNat + 1 < s.length
    · exact getD_of_all_eq hmem hj1 d
    · rw [List.getD_eq_getElem?_getD, List.getElem?_eq_none (by omega)]
      exact hd
  rw [hbase, hnext v rfl]
  ring

/-- Linear-interpolation quantile of a constant-valued nonempty sample set
is that constant value, for any `q ∈ [0, 1]`. -/
theorem quantileLinear_const {xs : List ℚ} {v : ℚ} (hne : xs ≠ [])
    (hall : ∀ a ∈ xs, a = v) {q : ℚ} (hq0 : 0 ≤ q) (hq1 : q ≤ 1) :
    quantileLinear xs q = v := by
  have hperm := List.perm_insertionSort (fun a b : ℚ => a ≤ b) xs
  have hmem : ∀ a ∈ sortQ xs, a = v := fun a ha => hall a (hperm.mem_iff.mp ha)
  have hn : 1 ≤ (sortQ xs).length := by
    show 1 ≤ (List.insertionSort (fun a b : ℚ => a ≤ b) xs).length
    rw [hperm.length_eq]
    exact List.length_pos.mpr hne
  exact getD_interp_const hmem hn hq0 hq1

/-! ## Claims about the outlier classifier -/

/-- C6: for every sample set, `classify` partitions it completely — the
normal points and the outlier points together are a permutation of the
input (equal as multisets), no point is in both outputs, and each output
is a sublist of the input (relative order preserved, no mutation). -/
theorem classify_partition (data : List ℚ) :
    ((classify data).1 ++ (classify data).2).Perm data ∧
    (∀ a ∈ (classify data).1, a ∉ (classify data).2) ∧
    (classify data).1.Sublist data ∧ (classify data).2.Sublist data := by
  refine ⟨?_, ?_, List.filter_sublist _, List.filter_sublist _⟩
  · show (data.filter _ ++ data.filter
      (fun x => decide (x < (fenceOf data).1) || decide ((fenceOf data).2 < x))).Perm data
    rw [List.filter_congr
      (fun x _ => fence_pred_compl (fenceOf data).1 (fenceOf data).2 x)]
    exact List.filter_append_perm _ data
  · intro a ha hb
    have h1 := (List.mem_filter.mp ha).2
    have h2 := (List.mem_filter.mp hb).2
    simp only [Bool.and_eq_true, Bool.or_eq_true, decide_eq_true_eq] at h1 h2
    rcases h2 with h | h
    · exact absurd h (not_lt.mpr h1.1)
    · exact absurd h (not_lt.mpr h1.2)

/-- C4 counterexample: the sample set `[1,1,1,1,1,1,1,100]` has
`IQR = Q3 - Q1 = 0` (both quartiles are 1), yet `classify` does not
return an empty outlier set: 100 lies strictly above the collapsed fence
and is classified as an outlier.  This refutes the `IQR = 0` half of the
degenerate-input claim. -/
theorem classify_iqr_zero_counterexample :
    quantileLinear [1, 1, 1, 1, 1, 1, 1, 100] (3/4)
        - quantileLinear [1, 1, 1, 1, 1, 1, 1, 100] (1/4) = 0 ∧
    (classify [1, 1, 1, 1, 1, 1, 1, 100]).2 = [100] ∧
    (classify [1, 1, 1, 1, 1, 1, 1, 100]).2 ≠ [] ∧
    (classify [1, 1, 1, 1, 1, 1, 1, 100]).1 ≠ [1, 1, 1, 1, 1, 1, 1, 100] := by
  have h2 : (classify [1, 1, 1, 1, 1, 1, 1, 100]).2 = [100] := by
    with_unfolding_all rfl
  have h1 : (classify [1, 1, 1, 1, 1, 1, 1, 100]).1 = [1, 1, 1, 1, 1, 1, 1] := by
    with_unfolding_all rfl
  refine ⟨by with_unfolding_all rfl, h2, ?_, ?_⟩
  · rw [h2]
    simp
  · rw [h1]
    simp

/-- C4 (amended): a sample set with fewer than two distinct values — empty,
or all samples equal — yields an empty outlier set and classifies every
point as normal.  (The original claim's other degenerate case, `IQR = 0`
with two or more distinct values, is refuted by
the counterexample above.) -/
theorem classify_single_value_all_normal (xs : List ℚ) (v : ℚ)
    (hall : ∀ a ∈ xs, a = v) :
    classify xs = (xs, []) := by
  cases hxs : xs with
  | nil => rfl
  | cons a l =>
    have hne : xs ≠ [] := by simp [hxs]
    rw [← hxs]
    have hq1 : quantileLinear xs (1/4) = v :=
      quantileLinear_const hne hall (by norm_num) (by norm_num)
    have hq3 : quantileLinear xs (3/4) = v :=
      quantileLinear_const hne hall (by norm_num) (by norm_num)
    unfold classify fenceOf
    rw [hq1, hq3]
    refine Prod.ext ?_ ?_
    · show xs.filter _ = xs
      refine List.filter_eq_self.mpr ?_
      intro b hb
      rw [hall b hb]
      have hlb : v - 3/2 * (v - v) ≤ v := by ring_nf; exact le_refl v
      have hub : v ≤ v + 3/2 * (v - v) := by ring_nf; exact le_refl v
      simp [hlb, hub]
    · show xs.filter _ = []
      refine List.filter_eq_nil_iff.mpr ?_
      intro b hb
      rw [hall b hb]
      have hlb : ¬(v < v - 3/2 * (v - v)) := by ring_nf; exact lt_irrefl v
      have hub : ¬(v + 3/2 * (v - v) < v) := by ring_nf; exact lt_irrefl v
      simp [hlb, hub]

/-- C4 witness: the theorem applied at the concrete constant sample set
`[2, 2, 2]`. -/
theorem classify_single_value_all_normal_witness :
    (∀ a ∈ ([2, 2, 2] : List ℚ), a = 2) ∧
    classify [2, 2, 2] = ([2, 2, 2], []) :=
  ⟨by decide, classify_single_value_all_normal [2, 2, 2] 2 (by decide)⟩

/-! ## Filter-chain lemmas -/

/-- A numeric comparison against a NaN bound is always false. -/
theorem numGe_none (v : Value) : numGe v none = false := by
  cases v <;> rfl

/-- A numeric comparison against a NaN bound is always false. -/
theorem numLeB_none (v : Value) : numLeB v none = false := by
  cases v <;> rfl

/-- The `iloc[0:0]` special case for an empty categorical selection is
pointwise the same as filtering with the spec's row predicate (membership
in an empty selection is false for every row). -/
theorem applySpec_eq_filter (rows : List Row) (s : FilterSpec) :
    applySpec rows s = rows.filter (specPred s) := by
  cases s with
  | categorical c all sel =>
    show (if sel.isEmpty then [] else _) = _
    by_cases hsel : sel.isEmpty
    · rw [if_pos hsel]
      rw [List.isEmpty_iff] at hsel
      subst hsel
      symm
      refine List.filter_eq_nil_iff.mpr ?_
      intro r _
      simp [specPred]
    · rw [if_neg hsel]
      rfl
  | numeric c mn mx lo hi => rfl

/-- The sequential filter loop equals a single filter by the conjunction of
all spec predicates. -/
theorem foldl_applySpec (fl : List FilterSpec) (rows : List Row) :
    fl.foldl applySpec rows = rows.filter (fun r => fl.all (fun s => specPred s r)) := by
  induction fl generalizing rows with
  | nil => simp
  | cons s fl ih =>
    rw [List.foldl_cons, ih, applySpec_eq_filter, List.filter_filter]
    refine List.filter_congr ?_
    intro a _
    rw [List.all_cons]
    exact Bool.and_comm _ _

/-- The minimum accumulated by `foldl min` bounds the seed and every
element from below. -/
theorem foldl_min_le (t : List ℚ) (a : ℚ) :
    t.foldl min a ≤ a ∧ ∀ x ∈ t, t.foldl min a ≤ x := by
  induction t generalizing a with
  | nil => simp
  | cons b t ih =>
    rw [List.foldl_cons]
    obtain ⟨h1, h2⟩ := ih (min a b)
    refine ⟨le_trans h1 (min_le_left a b), ?_⟩
    intro x hx
    rcases List.mem_cons.mp hx with rfl | hx
    · exact le_trans h1 (min_le_right a x)
    · exact h2 x hx

/-- The maximum accumulated by `foldl max` bounds the seed and every
element from above. -/
theorem le_foldl_max (t : List ℚ) (a : ℚ) :
    a ≤ t.foldl max a ∧ ∀ x ∈ t, x ≤ t.foldl max a := by
  induction t generalizing a with
  | nil => simp
  | cons b t ih =>
    rw [List.foldl_cons]
    obtain ⟨h1, h2⟩ := ih (max a b)
    refine ⟨le_trans (le_max_left a b) h1, ?_⟩
    intro x hx
    rcases List.mem_cons.mp hx with rfl | hx
    · exact le_trans (le_max_right a x) h1
    · exact h2 x hx

/-- `listMin l = some m` bounds every element of `l` from below. -/
theorem listMin_le {l : List ℚ} {m : ℚ} (hm : listMin l = some m) :
    ∀ x ∈ l, m ≤ x := by
  cases l with
  | nil => exact absurd hm (by simp [listMin])
  | cons a t =>
    have hm' : t.foldl min a = m := by
      have := hm
      simp only [listMin, Option.some.injEq] at this
      exact this
    intro x hx
    rw [← hm']
    rcases List.mem_cons.mp hx with rfl | hx
    · exact (foldl_min_le t x).1
    · exact (foldl_min_le t a).2 x hx

/-- `listMax l = some M` bounds every element of `l` from above. -/
theorem le_listMax {l : List ℚ} {M : ℚ} (hM : listMax l = some M) :
    ∀ x ∈ l, x ≤ M := by
  cases l with
  | nil => exact absurd hM (by simp [listMax])
  | cons a t =>
    have hM' : t.foldl max a = M := by
      have := hM
      simp only [listMax, Option.some.injEq] at this
      exact this
    intro x hx
    rw [← hM']
    rcases List.mem_cons.mp hx with rfl | hx
    · exact (le_foldl_max t x).1
    · exact (le_foldl_max t a).2 x hx

/-! ## Claims about the filter chain -/

/-- C7: chain evaluation is idempotent — re-applying a filter chain to its
own output returns that output unchanged. -/
theorem evaluate_idempotent (df : Dataset) (fl : List FilterSpec) :
    apply_filters_to_data (apply_filters_to_data df fl) fl = apply_filters_to_data df fl := by
  show Dataset.mk df.schema (fl.foldl applySpec (fl.foldl applySpec df.rows))
      = Dataset.mk df.schema (fl.foldl applySpec df.rows)
  congr 1
  conv =>
    lhs
    rw [foldl_applySpec]
  refine List.filter_eq_self.mpr ?_
  intro r hr
  rw [foldl_applySpec] at hr
  exact (List.mem_filter.mp hr).2

/-- C1: `add_new_filter` computes the new spec's domain (sorted distinct
non-missing values for a categorical column; min/max and initial selected
range for a numeric column) from the dataset narrowed by all currently
active filters — i.e. from `apply_filters_to_data df chain`, not from the
raw `df` — and appends the new spec at the end of the chain. -/
theorem add_new_filter_cascades (df : Dataset) (chain : List FilterSpec) (col : String) :
    add_new_filter df chain col =
      chain ++ [if isCategoricalCol df col then
          FilterSpec.categorical col
            (sorted_unique_dropna (apply_filters_to_data df chain) col)
            (sorted_unique_dropna (apply_filters_to_data df chain) col)
        else
          FilterSpec.numeric col
            (colMin (apply_filters_to_data df chain) col)
            (colMax (apply_filters_to_data df chain) col)
            (colMin (apply_filters_to_data df chain) col)
            (colMax (apply_filters_to_data df chain) col)] := by
  unfold add_new_filter apply_current_filters apply_filters_to_data
  cases h : isCategoricalCol df col <;> simp [h]

/-- C5: `removeFilter i` removes exactly the spec at index `i` (the result
is the chain's prefix before `i` followed by its suffix after `i`), and
every spec remaining in the chain is literally one of the original specs —
in particular its snapshot domain fields (`all_values`, `min_val`,
`max_val`) are unchanged. -/
theorem removeFilter_frame (chain : List FilterSpec) (i : ℕ) :
    removeFilter chain i = chain.take i ++ chain.drop (i + 1) ∧
    ∀ s ∈ removeFilter chain i, s ∈ chain := by
  have h : removeFilter chain i = chain.take i ++ chain.drop (i + 1) :=
    List.eraseIdx_eq_take_drop_succ chain i
  refine ⟨h, ?_⟩
  intro s hs
  rw [h] at hs
  rcases List.mem_append.mp hs with h1 | h1
  · exact (List.take_sublist i chain).subset h1
  · exact (List.drop_sublist (i + 1) chain).subset h1

/-- C8 (amended): appending a numeric spec whose selected range is the
column's full `(min, max)` over the already-filtered data is a no-op —
provided every already-filtered row carries a non-missing numeric value in
that column.  (With missing values present it is not a no-op; see the
counterexample.) -/
theorem full_range_filter_noop (df : Dataset) (fl : List FilterSpec) (col : String)
    (h : ∀ r ∈ (apply_filters_to_data df fl).rows, (getCell r col).isNum = true) :
    apply_filters_to_data df
      (fl ++ [FilterSpec.numeric col
        (colMin (apply_filters_to_data df fl) col)
        (colMax (apply_filters_to_data df fl) col)
        (colMin (apply_filters_to_data df fl) col)
        (colMax (apply_filters_to_data df fl) col)]) =
    apply_filters_to_data df fl := by
  refine congrArg (Dataset.mk df.schema) ?_
  rw [List.foldl_append]
  simp only [List.foldl_cons, List.foldl_nil]
  rw [applySpec_eq_filter]
  refine List.filter_eq_self.mpr ?_
  intro r hr
  have hnum := h r hr
  cases hv : getCell r col with
  | na => rw [hv] at hnum; exact absurd hnum (by simp [Value.isNum])
  | str s => rw [hv] at hnum; exact absurd hnum (by simp [Value.isNum])
  | num q =>
    have hqmem : q ∈ numsOf (fl.foldl applySpec df.rows) col := by
      refine List.mem_filterMap.mpr ⟨r, hr, ?_⟩
      rw [hv]
      rfl
    show (numGe (getCell r col) (colMin (apply_filters_to_data df fl) col)
        && numLeB (getCell r col) (colMax (apply_filters_to_data df fl) col)) = true
    have hrows : (apply_filters_to_data df fl).rows = fl.foldl applySpec df.rows := rfl
    cases hns : numsOf (fl.foldl applySpec df.rows) col with
    | nil => rw [hns] at hqmem; exact absurd hqmem (List.not_mem_nil q)
    | cons a t =>
      have hmin : colMin (apply_filters_to_data df fl) col = some (t.foldl min a) := by
        show listMin (numsOf (fl.foldl applySpec df.rows) col) = _
        rw [hns]
        rfl
      have hmax : colMax (apply_filters_to_data df fl) col = some (t.foldl max a) := by
        show listMax (numsOf (fl.foldl applySpec df.rows) col) = _
        rw [hns]
        rfl
      rw [hv, hmin, hmax]
      have hle : t.foldl min a ≤ q := listMin_le (l := a :: t) rfl q (hns ▸ hqmem)
      have hge : q ≤ t.foldl max a := le_listMax (l := a :: t) rfl q (hns ▸ hqmem)
      show (decide (t.foldl min a ≤ q) && decide (q ≤ t.foldl max a)) = true
      simp [hle, hge]

/-- C10: adding a numeric filter on a column whose cascaded
(already-filtered) data has no non-missing numeric value produces a spec
whose bounds and selected range are all NaN (`none`), without raising; and
evaluating the chain extended with that spec yields an empty dataset,
because every comparison against a NaN bound is false. -/
theorem add_filter_all_missing (df : Dataset) (chain : List FilterSpec) (col : String)
    (hcat : isCategoricalCol df col = false)
    (hnan : numsOf (apply_current_filters df chain).rows col = []) :
    add_new_filter df chain col =
      chain ++ [FilterSpec.numeric col none none none none] ∧
    (apply_filters_to_data df (add_new_filter df chain col)).rows = [] := by
  have hspec : add_new_filter df chain col =
      chain ++ [FilterSpec.numeric col none none none none] := by
    unfold add_new_filter
    rw [hcat]
    simp only [Bool.false_eq_true, if_false, colMin, colMax]
    rw [hnan]
    rfl
  refine ⟨hspec, ?_⟩
  rw [hspec]
  show (chain ++ [FilterSpec.numeric col none none none none]).foldl applySpec df.rows = []
  rw [List.foldl_append]
  simp only [List.foldl_cons, List.foldl_nil]
  rw [applySpec_eq_filter]
  refine List.filter_eq_nil_iff.mpr ?_
  intro r _
  show ¬(numGe (getCell r col) none && numLeB (getCell r col) none) = true
  rw [numGe_none]
  simp

/-- C8 counterexample: on `dfC8` the code itself creates the full-range
numeric spec `selectedRange = (1, 1) = (min, max)` (pandas `min`/`max` skip
the NaN), yet evaluating the chain with that spec drops the NaN row, so the
filter is not the identity. -/
theorem full_range_filter_counterexample :
    add_new_filter dfC8 [] "c" =
      [FilterSpec.numeric "c" (some 1) (some 1) (some 1) (some 1)] ∧
    colMin dfC8 "c" = some 1 ∧ colMax dfC8 "c" = some 1 ∧
    (apply_filters_to_data dfC8 (add_new_filter dfC8 [] "c")).rows =
      [[("c", Value.num 1)]] ∧
    (apply_filters_to_data dfC8 (add_new_filter dfC8 [] "c")).rows ≠ dfC8.rows := by
  have hrows : (apply_filters_to_data dfC8 (add_new_filter dfC8 [] "c")).rows =
      [[("c", Value.num 1)]] := by with_unfolding_all rfl
  refine ⟨by with_unfolding_all rfl, by with_unfolding_all rfl,
    by with_unfolding_all rfl, hrows, ?_⟩
  rw [hrows]
  show [[("c", Value.num 1)]] ≠ [[("c", Value.num 1)], [("c", Value.na)]]
  simp

/-- C8 witness: the amended no-op theorem applied to the complete
(no-missing-value) dataset `dfC8w` with the empty chain. -/
theorem full_range_filter_noop_witness :
    (∀ r ∈ (apply_filters_to_data dfC8w []).rows, (getCell r "c").isNum = true) ∧
    apply_filters_to_data dfC8w
      ([] ++ [FilterSpec.numeric "c"
        (colMin (apply_filters_to_data dfC8w []) "c")
        (colMax (apply_filters_to_data dfC8w []) "c")
        (colMin (apply_filters_to_data dfC8w []) "c")
        (colMax (apply_filters_to_data dfC8w []) "c")]) =
      apply_filters_to_data dfC8w [] :=
  ⟨by decide, full_range_filter_noop dfC8w [] "c" (by decide)⟩

/-- C10 witness: the all-missing theorem applied to `dfC10` with the empty
chain. -/
theorem add_filter_all_missing_witness :
    (isCategoricalCol dfC10 "c" = false ∧
     numsOf (apply_current_filters dfC10 []).rows "c" = []) ∧
    add_new_filter dfC10 [] "c" =
      [] ++ [FilterSpec.numeric "c" none none none none] ∧
    (apply_filters_to_data dfC10 (add_new_filter dfC10 [] "c")).rows = [] :=
  ⟨⟨by decide, by decide⟩, add_filter_all_missing dfC10 [] "c" (by decide) (by decide)⟩

/-! ## Group-key alignment (C9) -/

/-- C9 counterexample: in `dfC9`, group `A`'s only row has a missing value
column, so the statistics tables (whose keys come from the unfiltered
grouping column) list groups `[A, B]`, while the plot (whose groups come
from the `dropna`-ed frame) lists only `[B]` — the i-th rows no longer
correspond. -/
theorem group_keys_counterexample :
    statsGroupKeys dfC9 "g" = [Value.str "A", Value.str "B"] ∧
    plotGroupKeys dfC9 "v" "g" = [Value.str "B"] ∧
    plotGroupKeys dfC9 "v" "g" ≠ statsGroupKeys dfC9 "g" := by
  have h1 : statsGroupKeys dfC9 "g" = [Value.str "A", Value.str "B"] := by
    with_unfolding_all rfl
  have h2 : plotGroupKeys dfC9 "v" "g" = [Value.str "B"] := by
    with_unfolding_all rfl
  refine ⟨h1, h2, ?_⟩
  rw [h1, h2]
  simp

/-- C9 (amended): when every row has a non-missing value column, the group
keys of the statistics tables and the group positions of the plot are the
same list, in the same ascending sorted order, so the i-th statistics
group is the i-th plotted group.  (With missing values in the value column
the two enumerations can diverge; see the counterexample.) -/
theorem group_keys_align (df : Dataset) (y_column x_column : String)
    (h : ∀ r ∈ df.rows, (getCell r y_column).isNa = false) :
    plotGroupKeys df y_column x_column = statsGroupKeys df x_column := by
  unfold plotGroupKeys statsGroupKeys
  refine congrArg pySorted (congrArg uniq ?_)
  unfold colValues dropnaRows
  rw [List.filter_map]
  refine congrArg (List.map (fun r => getCell r x_column)) ?_
  refine List.filter_congr ?_
  intro r hr
  have hy := h r hr
  simp [List.all_cons, hy, Function.comp]

/-- C9 witness: the alignment theorem applied to the complete dataset
`dfC9w`. -/
theorem group_keys_align_witness :
    (∀ r ∈ dfC9w.rows, (getCell r "v").isNa = false) ∧
    plotGroupKeys dfC9w "v" "g" = statsGroupKeys dfC9w "g" :=
  ⟨by decide, group_keys_align dfC9w "v" "g" (by decide)⟩

/-! ## Palette exhaustion (C3) -/

/-- Once the remaining indices run past the color list, the comprehension
raises `IndexError` (provided it has not already finished). -/
theorem assignColors_oob (groups : List Value) (colors : List String) :
    ∀ i : ℕ, i ≤ colors.length → colors.length < i + groups.length →
    assignColors colors groups i = .error .indexError := by
  induction groups with
  | nil =>
    intro i hle hlt
    rw [List.length_nil] at hlt
    omega
  | cons g gs ih =>
    intro i hle hlt
    rw [List.length_cons] at hlt
    show (match colors[i]? with
      | some c => (assignColors colors gs (i + 1)).map (fun m => (g, c) :: m)
      | none => .error .indexError) = .error .indexError
    by_cases hi : i < colors.length
    · rw [List.getElem?_eq_getElem hi]
      have := ih (i + 1) (by omega) (by omega)
      rw [this]
      rfl
    · rw [List.getElem?_eq_none (by omega)]

/-- C3 (amended): when the distinct color-group values outnumber the
46-entry palette, the color-map construction raises `IndexError` — the
slice truncates the palette and the comprehension indexes past its end.
The palette is *not* cycled. -/
theorem palette_exhaustion_raises (color_groups : List Value)
    (h : EXTENDED_COLORS.length < color_groups.length) :
    build_color_map color_groups = .error .indexError := by
  unfold build_color_map
  refine assignColors_oob color_groups (EXTENDED_COLORS.take color_groups.length) 0
    (Nat.zero_le _) ?_
  rw [List.length_take]
  omega

set_option maxRecDepth 100000 in
/-- C3 counterexample: a dataset whose color column has 47 distinct values
(one more than the palette) makes the Series Assembler fail with
`IndexError` instead of degrading by cycling the palette. -/
theorem palette_exhaustion_counterexample :
    EXTENDED_COLORS.length = 46 ∧
    (colorGroupsOf rows47 "c").length = 47 ∧
    build_color_map (colorGroupsOf rows47 "c") = .error .indexError ∧
    ∀ m, build_color_map (colorGroupsOf rows47 "c") ≠ .ok m := by
  have h3 : build_color_map (colorGroupsOf rows47 "c") = .error .indexError := by
    with_unfolding_all rfl
  refine ⟨by rfl, by with_unfolding_all rfl, h3, ?_⟩
  intro m hm
  rw [h3] at hm
  exact absurd hm (by simp)

set_option maxRecDepth 100000 in
/-- C3 witness: the amended theorem applied at the concrete 47-value color
column of `rows47`. -/
theorem palette_exhaustion_raises_witness :
    EXTENDED_COLORS.length < (colorGroupsOf rows47 "c").length ∧
    build_color_map (colorGroupsOf rows47 "c") = .error .indexError := by
  have h : EXTENDED_COLORS.length < (colorGroupsOf rows47 "c").length := by
    with_unfolding_all decide
  exact ⟨h, palette_exhaustion_raises (colorGroupsOf rows47 "c") h⟩

/-! ## The missing mean marker in the single-box branch (C2) -/

/-- C2 (code bug): with no group column and `show_mean` enabled, the
single-box branch of `create_boxplot` does not emit a mean marker at the
column mean (1.5 for the data `[1, 2]`); it raises `UnboundLocalError`,
because lines 474-496 read `group_data` and `group`, which are assigned
only in the grouped branches of the function. -/
theorem single_boxplot_mean_unbound_local :
    create_boxplot_single dfC2 "v" true true = .error .unboundLocal ∧
    create_boxplot_single dfC2 "v" true false =
      .ok [Trace.box "v" [1, 2],
           Trace.markers "데이터" "v" [1, 2] "gray" true] := by
  constructor
  · with_unfolding_all rfl
  · with_unfolding_all rfl

end PosboltViz
